import Mathlib

/-
  Verification of the csi-vfs volume metadata store and mount-table
  resolver (src/service/service.go) against its specification.

  The Go code is shallowly embedded: pure string manipulation is
  translated to structural recursion over character lists, filesystem
  access is modelled by explicit oracles (a stat function and an
  association list from paths to parsed file contents), and JSON
  documents are modelled as a tree type so that the on-disk format can
  be reasoned about up to cosmetic whitespace, which the spec declares
  irrelevant.
-/

deriving instance DecidableEq for Except

namespace CsiVfs

/-! ## Character-list string helpers

  The Go code uses strings.HasPrefix, regexp matching and the path
  package.  We implement the needed string operations by structural
  recursion over the character list of a String so that every closed
  computation reduces in the kernel. -/

/-- Does the list s start with the pattern p?  Models strings.HasPrefix. -/
def startsWithChars : List Char → List Char → Bool
  | [], _ => true
  | _ :: _, [] => false
  | a :: as, b :: bs => a == b && startsWithChars as bs

/-- Does the list s contain the pattern p as a contiguous substring?
    Models an unanchored regular-expression literal match. -/
def hasSubChars (p : List Char) : List Char → Bool
  | [] => p.isEmpty
  | c :: rest => startsWithChars p (c :: rest) || hasSubChars p rest

/-- Does the list s end with the pattern p?  Models an end-anchored
    regular-expression literal match. -/
def endsWithChars (p s : List Char) : Bool :=
  startsWithChars p.reverse s.reverse

/-- Split a character list on the slash character.  Models the
    decomposition of a path into components used by Go path.Clean. -/
def splitSlashChars : List Char → List (List Char)
  | [] => [[]]
  | c :: rest =>
    if c == '/' then [] :: splitSlashChars rest
    else match splitSlashChars rest with
      | [] => [[c]]
      | comp :: comps => (c :: comp) :: comps

/-- Interleave the components with slashes again. -/
def joinSlash : List (List Char) → List Char
  | [] => []
  | [c] => c
  | c :: rest => c ++ '/' :: joinSlash rest

/-! ## Go path.Clean and path.Join

  The repository resolves paths with the Go standard-library path
  package.  path.Clean is embedded through its component-stack
  formulation: empty components and dot components are dropped, a
  dot-dot component pops the previous component when possible (it is
  dropped at the root of a rooted path and kept at the front of a
  relative path), and the result is re-joined, keeping a leading slash
  for rooted inputs and returning a lone dot for an empty result. -/

/-- Process the cleaned components: acc is the (reversed) output stack. -/
def cleanComps (rooted : Bool) : List (List Char) → List (List Char) → List (List Char)
  | acc, [] => acc.reverse
  | acc, c :: rest =>
    if c == ['.', '.'] then
      match acc with
      | top :: accRest =>
        if top == ['.', '.'] then cleanComps rooted (c :: acc) rest
        else cleanComps rooted accRest rest
      | [] =>
        if rooted then cleanComps rooted [] rest
        else cleanComps rooted [c] rest
    else cleanComps rooted (c :: acc) rest

/-- Go path.Clean: lexically canonicalize a slash-separated path. -/
def goClean (p : String) : String :=
  if p.data.isEmpty then "."
  else
    let rooted := startsWithChars ['/'] p.data
    let comps := (splitSlashChars p.data).filter
      (fun c => !c.isEmpty && !(c == ['.']))
    let joined := joinSlash (cleanComps rooted [] comps)
    if rooted then String.mk ('/' :: joined)
    else if joined.isEmpty then "."
    else String.mk joined

/-- Go path.Join on two elements: leading empty elements are skipped and
    the slash-joined remainder is cleaned. -/
def goJoin2 (a b : String) : String :=
  if a.data.isEmpty then
    if b.data.isEmpty then "" else goClean b
  else goClean (String.mk (a.data ++ '/' :: b.data))

/-! ## Mount-table entries and resolved mount records

  gofsutil.Entry and gofsutil.Info restricted to the fields the scan
  callback reads and writes. -/

/-- A raw mount-table entry (gofsutil.Entry): the fields consumed by the
    ScanEntry callback. -/
structure Entry where
  Root : String
  MountPoint : String
  MountSource : String
  FSType : String
  MountOpts : List String
deriving DecidableEq, Repr

/-- A resolved mount record (gofsutil.Info): the fields produced by the
    ScanEntry callback. -/
structure Info where
  Device : String
  Path : String
  Source : String
  «Type» : String
  Opts : List String
deriving DecidableEq, Repr

/-- The regular expression
    (case-insensitive) devtmpfs anchored at the start, or fuse. anywhere,
    or nfs with an optional digit anywhere, or overlay anchored at the
    end, applied with match-anywhere semantics by regexp.MatchString.
    Since the middle alternatives are unanchored and their tails are
    optional or match everything, they reduce to substring tests. -/
def matchRelevantFSType (t : String) : Bool :=
  let s := t.data.map Char.toLower
  startsWithChars "devtmpfs".data s
    || hasSubChars "fuse.".data s
    || hasSubChars "nfs".data s
    || endsWithChars "overlay".data s

/-- The relevance test of ScanEntry: valid filesystem type, or a mount
    source that begins with a slash. -/
def isRelevant (entry : Entry) : Bool :=
  matchRelevantFSType entry.FSType || startsWithChars ['/'] entry.MountSource.data

/-- First-match lookup in the scan cache (a Go map from source strings
    to entries; keys are only ever inserted when absent, so an
    association list with first-match lookup is a faithful model). -/
def lookupCache : List (String × Entry) → String → Option Entry
  | [], _ => none
  | (k, e) :: rest, s => if k == s then some e else lookupCache rest s

/-- The field-copying block of ScanEntry: Device, Path, Type and Opts
    come from the raw entry (Opts as a defensive copy), Source is the
    resolved source. -/
def mkInfo (e : Entry) (src : String) : Info :=
  { Device := e.MountSource
    Path := e.MountPoint
    Source := src
    «Type» := e.FSType
    Opts := e.MountOpts }

/-- getMountsObj.ScanEntry: drop irrelevant entries; on a cache miss
    emit the entry with its raw source and insert it into the cache; on
    a cache hit emit the entry with source resolved to the cached mount
    point joined with the current root fragment, leaving the cache
    unchanged. -/
def ScanEntry (entry : Entry) (cache : List (String × Entry)) :
    Option Info × List (String × Entry) :=
  if isRelevant entry then
    match lookupCache cache entry.MountSource with
    | some cachedEntry =>
        (some (mkInfo entry (goJoin2 cachedEntry.MountPoint entry.Root)), cache)
    | none =>
        (some (mkInfo entry entry.MountSource), (entry.MountSource, entry) :: cache)
  else (none, cache)

/-- The gofsutil scan driver: fold ScanEntry over the table in order,
    threading the per-scan cache and collecting the emitted records. -/
def scanMounts : List Entry → List (String × Entry) → List Info × List (String × Entry)
  | [], cache => ([], cache)
  | e :: rest, cache =>
    match ScanEntry e cache with
    | (some i, cache') =>
      let r := scanMounts rest cache'
      (i :: r.1, r.2)
    | (none, cache') => scanMounts rest cache'

/-- getMounts: scan the whole table with a fresh cache and return the
    resolved records. -/
def getMounts (table : List Entry) : List Info :=
  (scanMounts table []).1

/-- getVolumeMountPaths: join the mount root with the volume identifier,
    retrieve the resolved mount records (the retrieval itself may fail,
    and its result is threaded in as an explicit value), and collect the
    Path of every record whose resolved Source equals the joined path. -/
def getVolumeMountPaths (sys : Except String (List Entry))
    (mntDir volumeID : String) : Except String (List String) :=
  let mntPath := goJoin2 mntDir volumeID
  match sys with
  | .error e => .error e
  | .ok table =>
    .ok (((getMounts table).filter (fun mi => mi.Source == mntPath)).map Info.Path)

/-! ## JSON documents

  The on-disk metadata format is JSON.  The spec declares indentation
  cosmetic, so files are modelled at the level of parsed JSON trees:
  writing a file stores the tree produced by the marshaller, reading a
  file retrieves it, and every failure of the decoders is a failure to
  interpret the tree in the expected shape. -/

/-- A JSON document. -/
inductive Json where
  | null
  | bool (b : Bool)
  | num (n : Int)
  | str (s : String)
  | arr (elems : List Json)
  | obj (fields : List (String × Json))

/-- The error values returned by the service: gRPC status errors with
    the NotFound or Internal code, and raw errors — plain error values
    returned unwrapped by library calls (the JSON encoder on a write
    failure, the JSON decoder on a syntax failure) — which carry no
    status code. -/
inductive SvcError where
  | notFound (msg : String)
  | internal (msg : String)
  | raw (msg : String)
deriving DecidableEq, Repr

/-- Does the error carry the Internal status code?  A raw error does
    not: status.Code reports Unknown for a non-status error. -/
def SvcError.isInternal : SvcError → Bool
  | .internal _ => true
  | _ => false

/-! ## The creation request and its protocol codec

  volumeInfo embeds csi.CreateVolumeRequest and persists it through the
  external jsonpb codec.  The embedding keeps the two request fields the
  service reads (the volume name and the opaque creation parameters) and
  models the codec on them: jsonpb writes lower-camel field names, omits
  fields holding their zero value, and rejects unknown fields and
  mistyped values when reading. -/

/-- The fields of csi.CreateVolumeRequest consumed by the service: the
    volume name and the opaque string-to-string creation parameters. -/
structure CreateVolumeRequest where
  name : String
  parameters : List (String × String)
deriving DecidableEq, Repr

/-- jsonpb marshalling of the creation request: zero-valued fields are
    omitted, the parameters map becomes a JSON object of strings. -/
def jsonpbMarshal (r : CreateVolumeRequest) : Json :=
  Json.obj
    ((if r.name == "" then [] else [("name", Json.str r.name)])
      ++ (if r.parameters.isEmpty then []
          else [("parameters",
                 Json.obj (r.parameters.map (fun p => (p.1, Json.str p.2))))]))

/-- Decode a JSON object whose values must all be strings, as jsonpb
    requires for a string-to-string map field. -/
def decodeStringMap : List (String × Json) → Except String (List (String × String))
  | [] => .ok []
  | (k, Json.str v) :: rest => (decodeStringMap rest).map (fun m => (k, v) :: m)
  | (_, _) :: _ => .error "bad value in string map"

/-- Fold the fields of the request object into the message, rejecting
    mistyped values and unknown fields as jsonpb does. -/
def jsonpbReadFields : List (String × Json) → CreateVolumeRequest →
    Except String CreateVolumeRequest
  | [], acc => .ok acc
  | (k, j) :: rest, acc =>
    if k == "name" then
      match j with
      | Json.str s => jsonpbReadFields rest { acc with name := s }
      | _ => .error "bad value for field name"
    else if k == "parameters" then
      match j with
      | Json.obj ps =>
        match decodeStringMap ps with
        | .error e => .error e
        | .ok m => jsonpbReadFields rest { acc with parameters := m }
      | _ => .error "bad value for field parameters"
    else .error ("unknown field " ++ k)

/-- jsonpb unmarshalling of the creation request: the document must be
    an object; the message starts from its zero value. -/
def jsonpbUnmarshal : Json → Except String CreateVolumeRequest
  | Json.obj fs => jsonpbReadFields fs { name := "", parameters := [] }
  | _ => .error "expected an object"

/-! ## The volume record and its JSON codec -/

/-- volumeInfo: the embedded creation request, the recorded capacity,
    and the derived (not persisted) directory and info-file paths. -/
structure volumeInfo where
  createVolumeRequest : CreateVolumeRequest
  capacityBytes : Int
  path : String
  infoPath : String
deriving DecidableEq, Repr

/-- toCSIVolInfo: the public projection of a record — identifier,
    capacity and the creation parameters re-exposed as attributes. -/
def volumeInfo.toCSIVolInfo (v : volumeInfo) : String × Int × List (String × String) :=
  (v.createVolumeRequest.name, v.capacityBytes, v.createVolumeRequest.parameters)

/-- volumeInfo.MarshalJSON: marshal the embedded create request through
    jsonpb and wrap it with the capacity in a two-field object.  The
    jsonpb marshaller of the modelled message is total, so the error
    branch of the Go method is unreachable in the model. -/
def volumeInfo.marshalJSON (v : volumeInfo) : Json :=
  Json.obj [("capacity_bytes", Json.num v.capacityBytes),
            ("create_request", jsonpbMarshal v.createVolumeRequest)]

/-- The target shape of the outer decode: capacity_bytes into an int64
    starting from zero, create_request into a raw message that is absent
    (nil) until the field is seen. -/
structure infoFileObj where
  capacityBytes : Int
  createRequest : Option Json

/-- The encoding/json object decode for infoFileObj: fields are
    dispatched by key, unknown keys are ignored, a null leaves the
    target unchanged, a mistyped capacity is an error, and the raw
    create_request captures its value verbatim. -/
def decodeInfoFields : List (String × Json) → infoFileObj → Except String infoFileObj
  | [], acc => .ok acc
  | (k, j) :: rest, acc =>
    if k == "capacity_bytes" then
      match j with
      | Json.num n => decodeInfoFields rest { acc with capacityBytes := n }
      | Json.null => decodeInfoFields rest acc
      | _ => .error "cannot unmarshal value into field capacity_bytes of type int64"
    else if k == "create_request" then
      decodeInfoFields rest { acc with createRequest := some j }
    else decodeInfoFields rest acc

/-- The encoding/json decode of the volume document: a JSON null is a
    no-op on the zero struct, anything other than an object fails. -/
def decodeInfoObj : Json → Except String infoFileObj
  | Json.obj fs => decodeInfoFields fs { capacityBytes := 0, createRequest := none }
  | Json.null => .ok { capacityBytes := 0, createRequest := none }
  | _ => .error "cannot unmarshal value into volume struct"

/-- Reading the raw create_request message: an absent raw message is an
    empty reader, which jsonpb rejects at once. -/
def readCreateRequest : Option Json → Except String CreateVolumeRequest
  | none => .error "EOF"
  | some j => jsonpbUnmarshal j

/-- volumeInfo.UnmarshalJSON: decode the outer two-field object, then
    the embedded create request through jsonpb, and only then assign
    capacityBytes.  The method mutates its receiver, so the model
    returns the updated record together with the error, if any; both
    errors carry the Internal code. -/
def volumeInfo.unmarshalJSON (v : volumeInfo) (data : Json) :
    volumeInfo × Option SvcError :=
  match decodeInfoObj data with
  | .error e => (v, some (.internal ("failed to unmarshal volume: " ++ e)))
  | .ok obj =>
    match readCreateRequest obj.createRequest with
    | .error e => (v, some (.internal ("failed to unmarshal create request: " ++ e)))
    | .ok cr =>
      ({ v with createVolumeRequest := cr, capacityBytes := obj.capacityBytes }, none)

/-! ## Persistence

  The filesystem is modelled as an association list from paths to file
  contents; creating a file prepends, so the newest write shadows older
  ones.  Contents are either text that parses as a JSON document,
  carried as the parsed tree (indentation is cosmetic per the on-disk
  format), or text that is not valid JSON, carried as the syntax-error
  message the JSON decoder reports for it.  Creation and write failures
  are injected through explicit arguments, opening failure through
  absence of the file. -/

/-- The contents of a stored file. -/
inductive FileData where
  | doc (j : Json)
  | malformed (syntaxErr : String)

/-- The modelled filesystem contents. -/
abbrev FSState := List (String × FileData)

/-- Look up the current contents of a path. -/
def fsLookup : FSState → String → Option FileData
  | [], _ => none
  | (p, d) :: rest, q => if p == q then some d else fsLookup rest q

/-- A successful write: overwrite the path. -/
def fsWrite (fs : FSState) (p : String) (d : FileData) : FSState := (p, d) :: fs

/-- volumeInfo.save: fail with Internal when the info path is empty or
    the file cannot be created (the createOk flag injects environmental
    creation failure); otherwise encode the record and write it through
    the JSON encoder, whose result is returned unwrapped — a write
    failure (injected as writeErr) is therefore a raw error, not an
    Internal status.  The partial contents a failed write may leave
    behind are not tracked. -/
def volumeInfo.save (v : volumeInfo) (createOk : Bool) (writeErr : Option String)
    (fs : FSState) : Except SvcError FSState :=
  if v.infoPath == "" then
    .error (.internal "failed to create volume info file: empty path")
  else if !createOk then
    .error (.internal ("failed to create volume info file: " ++ v.infoPath))
  else
    match writeErr with
    | some m => .error (.raw m)
    | none => .ok (fsWrite fs v.infoPath (.doc (volumeInfo.marshalJSON v)))

/-- volumeInfo.load: fail with Internal when the info path is empty or
    the file cannot be opened (modelled by absence); otherwise return
    the JSON decoder result unwrapped: syntactically invalid contents
    yield the raw syntax error, while a parsed document is decoded by
    UnmarshalJSON, whose Internal-coded failures propagate unchanged. -/
def volumeInfo.load (v : volumeInfo) (fs : FSState) : Except SvcError volumeInfo :=
  if v.infoPath == "" then
    .error (.internal "failed to load volume info file: empty path")
  else
    match fsLookup fs v.infoPath with
    | none => .error (.internal ("failed to open volume info file: " ++ v.infoPath))
    | some (.malformed m) => .error (.raw m)
    | some (.doc data) =>
      match v.unmarshalJSON data with
      | (_, some e) => .error e
      | (v', none) => .ok v'

/-- save on the success path followed by load of a fresh record bound to
    the same file, the composition the round-trip property quantifies
    over. -/
def saveThenLoad (v fresh : volumeInfo) (fs : FSState) : Except SvcError volumeInfo :=
  match v.save true none fs with
  | .error e => .error e
  | .ok fs' => fresh.load fs'

/-! ## The volume store lookup -/

/-- The outcome of an os.Stat call on a path. -/
inductive StatResult where
  | found
  | notExist
  | failed (msg : String)
deriving DecidableEq, Repr

/-- fileExists: true on a successful stat, false without error when the
    path does not exist, false with the error otherwise. -/
def fileExists (stat : String → StatResult) (filePath : String) :
    Bool × Option String :=
  match stat filePath with
  | .found => (true, none)
  | .notExist => (false, none)
  | .failed m => (false, some m)

/-- The fixed metadata file name. -/
def infoFileName : String := ".info.json"

/-- service.getVolume: join the volume root with the identifier and
    require the directory to exist, join the fixed metadata file name
    and require the file to exist — both failures, including stat
    errors, are reported with the NotFound code — then load a fresh
    record bound to that directory and info file. -/
def getVolume (stat : String → StatResult) (fs : FSState)
    (vol idOrName : String) : Except SvcError volumeInfo :=
  let volPath := goJoin2 vol idOrName
  match fileExists stat volPath with
  | (false, some err) => .error (.notFound (volPath ++ ": " ++ err))
  | (false, none) => .error (.notFound volPath)
  | (true, _) =>
    let volInfoPath := goJoin2 volPath infoFileName
    match fileExists stat volInfoPath with
    | (false, some err) => .error (.notFound (volInfoPath ++ ": " ++ err))
    | (false, none) => .error (.notFound volInfoPath)
    | (true, _) =>
      let v : volumeInfo :=
        { createVolumeRequest := { name := "", parameters := [] }
          capacityBytes := 0
          path := volPath
          infoPath := volInfoPath }
      v.load fs

/-- Is the lookup outcome an Internal-coded error? -/
def isInternalErr : Except SvcError volumeInfo → Bool
  | .error (.internal _) => true
  | _ => false

/-! ## Lemmas about the scan of the mount table -/

/-- The first relevant entry of a list whose mount source is s: the
    entry the scan cache retains for s when the scan starts from an
    empty cache. -/
def firstRelevantWithSource : List Entry → String → Option Entry
  | [], _ => none
  | e :: rest, s =>
    if isRelevant e && e.MountSource == s then some e
    else firstRelevantWithSource rest s

theorem scanMounts_append (l1 l2 : List Entry) (c : List (String × Entry)) :
    scanMounts (l1 ++ l2) c =
      ((scanMounts l1 c).1 ++ (scanMounts l2 (scanMounts l1 c).2).1,
       (scanMounts l2 (scanMounts l1 c).2).2) := by
  induction l1 generalizing c with
  | nil => simp [scanMounts]
  | cons e rest ih =>
    rcases hh : ScanEntry e c with ⟨oi, c'⟩
    cases oi with
    | some i => simp [scanMounts, hh, ih]
    | none => simp [scanMounts, hh, ih]

/-- A cached source is never overwritten by the remainder of the scan. -/
theorem lookupCache_scanMounts_some (l : List Entry) (c : List (String × Entry))
    (s : String) (x : Entry) (h : lookupCache c s = some x) :
    lookupCache (scanMounts l c).2 s = some x := by
  induction l generalizing c with
  | nil => simpa [scanMounts] using h
  | cons e rest ih =>
    cases hrel : isRelevant e with
    | false =>
      simp [scanMounts, ScanEntry, hrel]
      exact ih c h
    | true =>
      cases hl : lookupCache c e.MountSource with
      | some y =>
        simp [scanMounts, ScanEntry, hrel, hl]
        exact ih c h
      | none =>
        have hne : (e.MountSource == s) = false := by
          cases hbe : e.MountSource == s with
          | false => rfl
          | true =>
            exfalso
            have heq : e.MountSource = s := by simpa using hbe
            rw [heq, h] at hl
            cases hl
        simp [scanMounts, ScanEntry, hrel, hl]
        exact ih _ (by simp [lookupCache, hne, h])

/-- Starting from a cache without s, the scan caches exactly the first
    relevant entry whose source is s, verbatim. -/
theorem lookupCache_scanMounts_none (l : List Entry) (c : List (String × Entry))
    (s : String) (h : lookupCache c s = none) :
    lookupCache (scanMounts l c).2 s = firstRelevantWithSource l s := by
  induction l generalizing c with
  | nil => simpa [scanMounts, firstRelevantWithSource] using h
  | cons e rest ih =>
    cases hrel : isRelevant e with
    | false =>
      simp [scanMounts, ScanEntry, hrel, firstRelevantWithSource]
      exact ih c h
    | true =>
      cases hl : lookupCache c e.MountSource with
      | some y =>
        have hne : (e.MountSource == s) = false := by
          cases hbe : e.MountSource == s with
          | false => rfl
          | true =>
            exfalso
            have heq : e.MountSource = s := by simpa using hbe
            rw [heq, h] at hl
            cases hl
        simp [scanMounts, ScanEntry, hrel, hl, firstRelevantWithSource, hne]
        exact ih c h
      | none =>
        cases hbe : e.MountSource == s with
        | true =>
          have hsome : lookupCache ((e.MountSource, e) :: c) s = some e := by
            simp [lookupCache, hbe]
          simp [scanMounts, ScanEntry, hrel, hl, firstRelevantWithSource, hbe]
          exact lookupCache_scanMounts_some rest _ s e hsome
        | false =>
          have hnone : lookupCache ((e.MountSource, e) :: c) s = none := by
            simp [lookupCache, hbe, h]
          simp [scanMounts, ScanEntry, hrel, hl, firstRelevantWithSource, hbe]
          exact ih _ hnone

/-- The first relevant entry for a source not yet cached is emitted with
    its raw source, unresolved. -/
theorem firstRelevant_mem_scanMounts (l : List Entry) (c : List (String × Entry))
    (s : String) (x : Entry) (hc : lookupCache c s = none)
    (hf : firstRelevantWithSource l s = some x) :
    mkInfo x x.MountSource ∈ (scanMounts l c).1 := by
  induction l generalizing c with
  | nil => simp [firstRelevantWithSource] at hf
  | cons e rest ih =>
    cases hrel : isRelevant e with
    | false =>
      have hf' : firstRelevantWithSource rest s = some x := by
        simpa [firstRelevantWithSource, hrel] using hf
      simp [scanMounts, ScanEntry, hrel]
      exact ih c hc hf'
    | true =>
      cases hbe : e.MountSource == s with
      | true =>
        have hx : e = x := by
          simpa [firstRelevantWithSource, hrel, hbe] using hf
        have heq : e.MountSource = s := by simpa using hbe
        have hl : lookupCache c e.MountSource = none := by rw [heq]; exact hc
        subst hx
        simp [scanMounts, ScanEntry, hrel, hl]
      | false =>
        have hf' : firstRelevantWithSource rest s = some x := by
          simpa [firstRelevantWithSource, hrel, hbe] using hf
        cases hl : lookupCache c e.MountSource with
        | some y =>
          simp [scanMounts, ScanEntry, hrel, hl]
          exact Or.inr (ih c hc hf')
        | none =>
          have hc' : lookupCache ((e.MountSource, e) :: c) s = none := by
            simp [lookupCache, hbe, hc]
          simp [scanMounts, ScanEntry, hrel, hl]
          exact Or.inr (ih _ hc' hf')

/-! ## Concrete mount-table entries used by the claims -/

/-- The first mount of the root-fragment scenario: the device mounted at
    its anchor point. -/
def mntVol1E : Entry :=
  { Root := "/", MountPoint := "/mnt/vol1", MountSource := "/dev/sda1",
    FSType := "ext4", MountOpts := ["rw"] }

/-- The second mount of the root-fragment scenario: a bind mount of a
    sub-directory of the same device. -/
def subdirE : Entry :=
  { Root := "/subdir", MountPoint := "/published/x", MountSource := "/dev/sda1",
    FSType := "ext4", MountOpts := ["rw"] }

/-- The single-anchor scenario, first entry. -/
def sda1A : Entry :=
  { Root := "/", MountPoint := "/a", MountSource := "/dev/sda1",
    FSType := "ext4", MountOpts := ["rw"] }

/-- The single-anchor scenario, second entry. -/
def sda1B : Entry :=
  { Root := "/", MountPoint := "/b", MountSource := "/dev/sda1",
    FSType := "ext4", MountOpts := ["rw"] }

/-- A tmpfs mount whose source is not an absolute path. -/
def tmpfsE : Entry :=
  { Root := "/", MountPoint := "/tmp", MountSource := "tmpfs",
    FSType := "tmpfs", MountOpts := ["rw"] }

/-- An NFSv4 mount whose source is a remote spec, not an absolute path. -/
def nfs4E : Entry :=
  { Root := "/", MountPoint := "/data", MountSource := "srv:export",
    FSType := "nfs4", MountOpts := ["rw"] }

/-- An ext4 bind mount of a real directory: absolute source. -/
def ext4E : Entry :=
  { Root := "/", MountPoint := "/m", MountSource := "/real/path",
    FSType := "ext4", MountOpts := ["rw"] }

/-- A made-up filesystem type containing nfs in the middle, with a
    non-absolute source. -/
def xnfsxE : Entry :=
  { Root := "/", MountPoint := "/x", MountSource := "something",
    FSType := "xnfsx", MountOpts := [] }

/-! ## Claims about the mount-table resolver -/

/-- Claim C1: on a cache hit during a scan, the emitted record resolves
    its Source to the cached first entry mount point joined with the
    current entry root fragment; the cache is not updated by the hit;
    the cache holds the first relevant entry seen for the source,
    verbatim; and that first entry was itself emitted with its raw
    source, never rewritten. -/
theorem scan_cache_hit_resolves_to_first_anchor
    (pre post : List Entry) (e first : Entry)
    (h1 : isRelevant e = true)
    (h2 : firstRelevantWithSource pre e.MountSource = some first) :
    lookupCache (scanMounts pre []).2 e.MountSource = some first
    ∧ (scanMounts (pre ++ e :: post) []).1 =
        (scanMounts pre []).1
          ++ mkInfo e (goJoin2 first.MountPoint e.Root)
            :: (scanMounts post (scanMounts pre []).2).1
    ∧ (scanMounts (pre ++ [e]) []).2 = (scanMounts pre []).2
    ∧ mkInfo first first.MountSource ∈ (scanMounts pre []).1 := by
  have hcache : lookupCache (scanMounts pre []).2 e.MountSource = some first := by
    rw [lookupCache_scanMounts_none pre [] e.MountSource rfl]
    exact h2
  have hscan : ScanEntry e (scanMounts pre []).2 =
      (some (mkInfo e (goJoin2 first.MountPoint e.Root)), (scanMounts pre []).2) := by
    simp [ScanEntry, h1, hcache]
  refine ⟨hcache, ?_, ?_, ?_⟩
  · rw [scanMounts_append]
    simp [scanMounts, hscan]
  · rw [scanMounts_append]
    simp [scanMounts, hscan]
  · exact firstRelevant_mem_scanMounts pre [] e.MountSource first rfl h2

/-- Claim C1 witness: the root-fragment scenario.  The second entry for
    /dev/sda1 resolves its Source to /mnt/vol1/subdir, the join of the
    cached anchor mount point and the bind-mount root fragment. -/
theorem scan_cache_hit_witness :
    isRelevant subdirE = true
    ∧ firstRelevantWithSource [mntVol1E] subdirE.MountSource = some mntVol1E
    ∧ goJoin2 mntVol1E.MountPoint subdirE.Root = "/mnt/vol1/subdir"
    ∧ (scanMounts ([mntVol1E] ++ subdirE :: []) []).1 =
        (scanMounts [mntVol1E] []).1
          ++ mkInfo subdirE (goJoin2 mntVol1E.MountPoint subdirE.Root)
            :: (scanMounts ([] : List Entry) (scanMounts [mntVol1E] []).2).1 :=
  ⟨by decide, by decide, by decide,
   (scan_cache_hit_resolves_to_first_anchor [mntVol1E] [] subdirE mntVol1E
      (by decide) (by decide)).2.1⟩

/-- Claim C2 counterexample: in the single-anchor scenario the resolved
    sources are /dev/sda1 then /a — the first record keeps its raw
    source, so the two records do not both resolve to /a. -/
theorem scan_single_anchor_cex :
    (getMounts [sda1A, sda1B]).map Info.Source = ["/dev/sda1", "/a"]
    ∧ ¬ (getMounts [sda1A, sda1B]).map Info.Source = ["/a", "/a"] := by
  constructor
  · decide
  · decide

/-- Claim C2 amended: both entries are relevant; resolving yields the
    first record with its raw Source /dev/sda1 (the first entry for a
    source is cached verbatim and never rewritten) and only the second
    record with resolved Source /a, the first entry mount point. -/
theorem scan_single_anchor_amended :
    isRelevant sda1A = true ∧ isRelevant sda1B = true
    ∧ getMounts [sda1A, sda1B] = [mkInfo sda1A "/dev/sda1", mkInfo sda1B "/a"] := by
  refine ⟨by decide, by decide, by decide⟩

/-- Claim C6: an entry is emitted exactly when its filesystem type
    matches the relevance pattern or its source begins with a slash;
    a tmpfs mount with a non-absolute source is dropped, an nfs4 mount
    is kept although its source is not absolute, and an ext4 mount with
    an absolute source is kept. -/
theorem scan_relevance_filter :
    (∀ (e : Entry) (cache : List (String × Entry)),
        ((ScanEntry e cache).1).isSome = isRelevant e)
    ∧ (∀ e : Entry, isRelevant e =
        (matchRelevantFSType e.FSType || startsWithChars ['/'] e.MountSource.data))
    ∧ (ScanEntry tmpfsE []).1 = none
    ∧ ((ScanEntry nfs4E []).1).isSome = true
    ∧ ((ScanEntry ext4E []).1).isSome = true := by
  refine ⟨?_, fun _ => rfl, by decide, by decide, by decide⟩
  intro e cache
  cases hrel : isRelevant e with
  | false => simp [ScanEntry, hrel]
  | true =>
    cases hl : lookupCache cache e.MountSource with
    | some y => simp [ScanEntry, hrel, hl]
    | none => simp [ScanEntry, hrel, hl]

/-- Claim C9: the middle alternatives of the relevance pattern are
    unanchored, so any filesystem type containing nfs (case folded)
    anywhere is relevant and its entry is kept regardless of the source;
    devtmpfs is anchored only at the start (a trailing suffix still
    matches, a leading one does not), overlay only at the end (a leading
    suffix still matches, a trailing one does not), and fuse. matches in
    the middle of a type. -/
theorem scan_regexp_unanchored_nfs :
    (∀ (e : Entry) (cache : List (String × Entry)),
        hasSubChars "nfs".data (e.FSType.data.map Char.toLower) = true →
        ((ScanEntry e cache).1).isSome = true)
    ∧ matchRelevantFSType "xnfsx" = true
    ∧ matchRelevantFSType "devtmpfsx" = true
    ∧ matchRelevantFSType "xdevtmpfs" = false
    ∧ matchRelevantFSType "xoverlay" = true
    ∧ matchRelevantFSType "overlayx" = false
    ∧ matchRelevantFSType "xfuse.x" = true
    ∧ ((ScanEntry xnfsxE []).1).isSome = true := by
  refine ⟨?_, by decide, by decide, by decide, by decide, by decide, by decide,
          by decide⟩
  intro e cache h
  have hm : matchRelevantFSType e.FSType = true := by
    simp [matchRelevantFSType, h]
  have hrel : isRelevant e = true := by simp [isRelevant, hm]
  cases hl : lookupCache cache e.MountSource with
  | some y => simp [ScanEntry, hrel, hl]
  | none => simp [ScanEntry, hrel, hl]

/-- Claim C9 witness: an entry of type xnfsx with a non-absolute source
    is kept because the nfs alternative matches mid-string. -/
theorem scan_regexp_unanchored_nfs_witness :
    hasSubChars "nfs".data (xnfsxE.FSType.data.map Char.toLower) = true
    ∧ ((ScanEntry xnfsxE []).1).isSome = true :=
  ⟨by decide, (scan_regexp_unanchored_nfs).1 xnfsxE [] (by decide)⟩

/-! ## Lemmas about the record codec -/

theorem decodeStringMap_roundtrip (ps : List (String × String)) :
    decodeStringMap (ps.map (fun p => (p.1, Json.str p.2))) = .ok ps := by
  induction ps with
  | nil => rfl
  | cons p rest ih => simp [decodeStringMap, ih, Except.map]

/-- The jsonpb codec of the creation request is a round trip. -/
theorem jsonpb_roundtrip (r : CreateVolumeRequest) :
    jsonpbUnmarshal (jsonpbMarshal r) = .ok r := by
  obtain ⟨nm, ps⟩ := r
  cases hn : nm == "" with
  | true =>
    have hn' : nm = "" := by simpa using hn
    cases hp : ps.isEmpty with
    | true =>
      have hp' : ps = [] := by simpa [List.isEmpty_iff] using hp
      subst hn' hp'
      rfl
    | false =>
      subst hn'
      simp [jsonpbMarshal, hp, jsonpbUnmarshal, jsonpbReadFields,
            decodeStringMap_roundtrip]
  | false =>
    cases hp : ps.isEmpty with
    | true =>
      have hp' : ps = [] := by simpa [List.isEmpty_iff] using hp
      subst hp'
      simp [jsonpbMarshal, hn, jsonpbUnmarshal, jsonpbReadFields]
    | false =>
      simp [jsonpbMarshal, hn, hp, jsonpbUnmarshal, jsonpbReadFields,
            decodeStringMap_roundtrip]

/-- Unmarshalling the marshalled form of any record into any receiver
    succeeds and transfers exactly the create request and the capacity. -/
theorem unmarshal_marshal (w v : volumeInfo) :
    w.unmarshalJSON (volumeInfo.marshalJSON v) =
      ({ w with createVolumeRequest := v.createVolumeRequest,
                capacityBytes := v.capacityBytes }, none) := by
  simp [volumeInfo.marshalJSON, volumeInfo.unmarshalJSON, decodeInfoObj,
        decodeInfoFields, readCreateRequest, jsonpb_roundtrip]

/-- Every failure of UnmarshalJSON leaves the receiver unchanged and
    carries the Internal code. -/
theorem unmarshalJSON_error_cases (v : volumeInfo) (d : Json) (e : SvcError)
    (h : (v.unmarshalJSON d).2 = some e) :
    (v.unmarshalJSON d).1 = v ∧ ∃ m, e = SvcError.internal m := by
  rcases hd : decodeInfoObj d with msg | obj
  · simp [volumeInfo.unmarshalJSON, hd] at h ⊢
    exact ⟨"failed to unmarshal volume: " ++ msg, h.symm⟩
  · rcases hr : readCreateRequest obj.createRequest with msg | cr
    · simp [volumeInfo.unmarshalJSON, hd, hr] at h ⊢
      exact ⟨"failed to unmarshal create request: " ++ msg, h.symm⟩
    · simp [volumeInfo.unmarshalJSON, hd, hr] at h

/-! ## Claims about the record codec and persistence -/

/-- Claim C3: saving any record and loading through a fresh record bound
    to the same info-file path recovers the capacity and the creation
    parameters (indeed the whole embedded create request) that were
    saved. -/
theorem save_load_roundtrip (v fresh : volumeInfo) (fs : FSState)
    (h1 : ¬ v.infoPath = "") (h2 : fresh.infoPath = v.infoPath) :
    saveThenLoad v fresh fs =
      .ok { fresh with createVolumeRequest := v.createVolumeRequest,
                       capacityBytes := v.capacityBytes } := by
  have hb : (v.infoPath == "") = false := by
    simpa using h1
  simp [saveThenLoad, volumeInfo.save, hb, volumeInfo.load, h2, fsWrite,
        fsLookup, unmarshal_marshal]

/-- A record carrying arbitrary capacity and parameters, bound to an
    info file. -/
def v0 : volumeInfo :=
  { createVolumeRequest := { name := "vol1", parameters := [("k", "v"), ("k2", "v2")] }
    capacityBytes := 1024
    path := "/vol/vol1"
    infoPath := "/vol/vol1/.info.json" }

/-- A fresh record bound to the same info file as v0. -/
def fresh0 : volumeInfo :=
  { createVolumeRequest := { name := "", parameters := [] }
    capacityBytes := 0
    path := "/vol/vol1"
    infoPath := "/vol/vol1/.info.json" }

/-- Claim C3 witness: the round trip at a concrete record on an empty
    filesystem. -/
theorem save_load_roundtrip_witness :
    ¬ v0.infoPath = "" ∧ fresh0.infoPath = v0.infoPath
    ∧ saveThenLoad v0 fresh0 [] =
        .ok { fresh0 with createVolumeRequest := v0.createVolumeRequest,
                          capacityBytes := v0.capacityBytes } :=
  ⟨by decide, rfl, save_load_roundtrip v0 fresh0 [] (by decide) rfl⟩

/-- A record carrying data, bound to an info file, used to exercise the
    persistence failure modes. -/
def v5 : volumeInfo :=
  { createVolumeRequest := { name := "v5", parameters := [("p", "q")] }
    capacityBytes := 42
    path := "/vol/v5"
    infoPath := "/vol/v5/.info.json" }

/-- A record whose info path is empty, not yet bound to a directory. -/
def vEmptyPath : volumeInfo :=
  { createVolumeRequest := { name := "x", parameters := [] }
    capacityBytes := 1
    path := ""
    infoPath := "" }

/-- A filesystem holding a well-formed JSON document of the wrong shape
    at the v5 info path. -/
def fsBad : FSState := [("/vol/v5/.info.json", .doc (Json.str "garbage"))]

/-- A filesystem holding syntactically invalid contents at the v5 info
    path, carried with the syntax error the decoder reports. -/
def fsMalformed : FSState :=
  [("/vol/v5/.info.json",
    .malformed "invalid character looking for beginning of value")]

/-- Project the error of a save outcome. -/
def saveErr : Except SvcError FSState → Option SvcError
  | .ok _ => none
  | .error e => some e

/-- Claim C5 counterexample: a write failure after a successful create
    makes save return the raw encoder error, and syntactically invalid
    file contents make load return the raw decoder error — in both
    cases the error does not carry the Internal status code, refuting
    the claim that every such failure is an InternalError. -/
theorem save_load_raw_errors_cex :
    saveErr (v5.save true (some "no space left on device") []) =
      some (.raw "no space left on device")
    ∧ SvcError.isInternal (.raw "no space left on device") = false
    ∧ v5.load fsMalformed =
        .error (.raw "invalid character looking for beginning of value")
    ∧ SvcError.isInternal
        (.raw "invalid character looking for beginning of value") = false := by
  refine ⟨rfl, rfl, by decide, rfl⟩

/-- Claim C5 amended: save fails with Internal on an empty info path and
    when the file cannot be created, but a failure while writing the
    created file is returned as the raw write error; load fails with
    Internal on an empty info path, when the file cannot be opened, and
    when well-formed contents do not decode into the expected shape,
    but syntactically invalid contents are returned as the raw syntax
    error; in every case no success value is returned. -/
theorem save_load_error_code_taxonomy :
    (∀ (v : volumeInfo) (c : Bool) (w : Option String) (fs : FSState),
        v.infoPath = "" →
        v.save c w fs =
          .error (.internal "failed to create volume info file: empty path"))
    ∧ (∀ (v : volumeInfo) (w : Option String) (fs : FSState), ¬ v.infoPath = "" →
        v.save false w fs =
          .error (.internal ("failed to create volume info file: " ++ v.infoPath)))
    ∧ (∀ (v : volumeInfo) (fs : FSState) (m : String), ¬ v.infoPath = "" →
        v.save true (some m) fs = .error (.raw m))
    ∧ (∀ (v : volumeInfo) (fs : FSState), v.infoPath = "" →
        v.load fs = .error (.internal "failed to load volume info file: empty path"))
    ∧ (∀ (v : volumeInfo) (fs : FSState), ¬ v.infoPath = "" →
        fsLookup fs v.infoPath = none →
        v.load fs =
          .error (.internal ("failed to open volume info file: " ++ v.infoPath)))
    ∧ (∀ (v : volumeInfo) (fs : FSState) (m : String), ¬ v.infoPath = "" →
        fsLookup fs v.infoPath = some (.malformed m) →
        v.load fs = .error (.raw m))
    ∧ (∀ (v : volumeInfo) (fs : FSState) (d : Json) (e : SvcError),
        ¬ v.infoPath = "" → fsLookup fs v.infoPath = some (.doc d) →
        (v.unmarshalJSON d).2 = some e →
        v.load fs = .error e ∧ ∃ m, e = SvcError.internal m) := by
  refine ⟨?_, ?_, ?_, ?_, ?_, ?_, ?_⟩
  · intro v c w fs h
    simp [volumeInfo.save, h]
  · intro v w fs h
    have hb : (v.infoPath == "") = false := by simpa using h
    simp [volumeInfo.save, hb]
  · intro v fs m h
    have hb : (v.infoPath == "") = false := by simpa using h
    simp [volumeInfo.save, hb]
  · intro v fs h
    simp [volumeInfo.load, h]
  · intro v fs h hl
    have hb : (v.infoPath == "") = false := by simpa using h
    simp [volumeInfo.load, hb, hl]
  · intro v fs m h hl
    have hb : (v.infoPath == "") = false := by simpa using h
    simp [volumeInfo.load, hb, hl]
  · intro v fs d e h hl hu
    have hb : (v.infoPath == "") = false := by simpa using h
    refine ⟨?_, (unmarshalJSON_error_cases v d e hu).2⟩
    rcases hum : v.unmarshalJSON d with ⟨v', oe⟩
    rw [hum] at hu
    simp at hu
    subst hu
    simp [volumeInfo.load, hb, hl, hum]

/-- Claim C5 witness: each failure mode at a concrete input — the two
    empty-path errors, the creation failure, the injected write failure,
    the open failure, the syntax failure, and the shape failure. -/
theorem save_load_error_code_taxonomy_witness :
    vEmptyPath.save true none [] =
      .error (.internal "failed to create volume info file: empty path")
    ∧ v5.save false none [] =
        .error (.internal ("failed to create volume info file: " ++ v5.infoPath))
    ∧ v5.save true (some "no space left on device") [] =
        .error (.raw "no space left on device")
    ∧ vEmptyPath.load [] =
        .error (.internal "failed to load volume info file: empty path")
    ∧ v5.load [] =
        .error (.internal ("failed to open volume info file: " ++ v5.infoPath))
    ∧ v5.load fsMalformed =
        .error (.raw "invalid character looking for beginning of value")
    ∧ (v5.load fsBad =
        .error (.internal "failed to unmarshal volume: cannot unmarshal value into volume struct")
       ∧ ∃ m, (SvcError.internal "failed to unmarshal volume: cannot unmarshal value into volume struct") = SvcError.internal m) :=
  ⟨save_load_error_code_taxonomy.1 vEmptyPath true none [] rfl,
   save_load_error_code_taxonomy.2.1 v5 none [] (by decide),
   save_load_error_code_taxonomy.2.2.1 v5 [] "no space left on device" (by decide),
   save_load_error_code_taxonomy.2.2.2.1 vEmptyPath [] rfl,
   save_load_error_code_taxonomy.2.2.2.2.1 v5 [] (by decide) rfl,
   save_load_error_code_taxonomy.2.2.2.2.2.1 v5 fsMalformed
     "invalid character looking for beginning of value" (by decide) rfl,
   save_load_error_code_taxonomy.2.2.2.2.2.2 v5 fsBad (Json.str "garbage")
     (.internal "failed to unmarshal volume: cannot unmarshal value into volume struct")
     (by decide) rfl rfl⟩

/-- Claim C10: when UnmarshalJSON fails — on the outer document or on
    the embedded create request — the receiver keeps its prior
    capacityBytes and the reported error carries the Internal code. -/
theorem unmarshal_error_preserves_capacityBytes (v : volumeInfo) (d : Json)
    (e : SvcError) (h : (v.unmarshalJSON d).2 = some e) :
    (v.unmarshalJSON d).1.capacityBytes = v.capacityBytes
    ∧ ∃ m, e = SvcError.internal m := by
  obtain ⟨h1, h2⟩ := unmarshalJSON_error_cases v d e h
  exact ⟨by rw [h1], h2⟩

/-- A record with a recognizable prior capacity. -/
def v10 : volumeInfo :=
  { createVolumeRequest := { name := "n", parameters := [("a", "b")] }
    capacityBytes := 777
    path := "/vol/n"
    infoPath := "/vol/n/.info.json" }

/-- A document whose outer shape decodes but whose embedded create
    request does not. -/
def badCreateReqDoc : Json :=
  Json.obj [("capacity_bytes", Json.num 9), ("create_request", Json.num 5)]

/-- Claim C10 witness: a document with an undecodable create request
    leaves the prior capacity of 777 in place. -/
theorem unmarshal_error_preserves_capacityBytes_witness :
    (v10.unmarshalJSON badCreateReqDoc).2 =
      some (.internal "failed to unmarshal create request: expected an object")
    ∧ (v10.unmarshalJSON badCreateReqDoc).1.capacityBytes = v10.capacityBytes
    ∧ ∃ m, (SvcError.internal "failed to unmarshal create request: expected an object")
        = SvcError.internal m :=
  ⟨rfl,
   (unmarshal_error_preserves_capacityBytes v10 badCreateReqDoc
      (.internal "failed to unmarshal create request: expected an object") rfl).1,
   (unmarshal_error_preserves_capacityBytes v10 badCreateReqDoc
      (.internal "failed to unmarshal create request: expected an object") rfl).2⟩

/-! ## Claims about the store lookup -/

/-- A stat oracle that fails on the candidate volume directory. -/
def statFail0 : String → StatResult :=
  fun p => if p == "/vol/id" then .failed "permission denied" else .notExist

/-- Claim C4 counterexample: a stat failure on the candidate directory
    is reported with the NotFound code wrapping the stat failure, not
    with the Internal code. -/
theorem getVolume_stat_failure_not_internal_cex :
    getVolume statFail0 [] "/vol" "id" =
      .error (.notFound "/vol/id: permission denied")
    ∧ isInternalErr (getVolume statFail0 [] "/vol" "id") = false := by
  constructor
  · decide
  · decide

/-- Claim C4 amended: the lookup fails with NotFound when the candidate
    directory does not exist and when it exists but the metadata file
    does not; any other stat failure during these checks is also
    reported as NotFound, wrapping the stat failure message — never as
    an Internal error. -/
theorem getVolume_missing_and_stat_failures_notFound
    (stat : String → StatResult) (fs : FSState) (vol idOrName : String) :
    (stat (goJoin2 vol idOrName) = .notExist →
       getVolume stat fs vol idOrName = .error (.notFound (goJoin2 vol idOrName)))
    ∧ (∀ m, stat (goJoin2 vol idOrName) = .failed m →
        getVolume stat fs vol idOrName =
          .error (.notFound (goJoin2 vol idOrName ++ ": " ++ m)))
    ∧ (stat (goJoin2 vol idOrName) = .found →
        (stat (goJoin2 (goJoin2 vol idOrName) infoFileName) = .notExist →
           getVolume stat fs vol idOrName =
             .error (.notFound (goJoin2 (goJoin2 vol idOrName) infoFileName)))
        ∧ (∀ m, stat (goJoin2 (goJoin2 vol idOrName) infoFileName) = .failed m →
            getVolume stat fs vol idOrName =
              .error (.notFound
                (goJoin2 (goJoin2 vol idOrName) infoFileName ++ ": " ++ m)))) := by
  refine ⟨?_, ?_, ?_⟩
  · intro h
    simp [getVolume, fileExists, h]
  · intro m h
    simp [getVolume, fileExists, h]
  · intro h1
    refine ⟨?_, ?_⟩
    · intro h2
      simp [getVolume, fileExists, h1, h2]
    · intro m h2
      simp [getVolume, fileExists, h1, h2]

/-- A stat oracle on an entirely empty volume root. -/
def statMiss0 : String → StatResult := fun _ => .notExist

/-- A stat oracle where the volume directory exists but nothing inside
    it does. -/
def statDirOnly0 : String → StatResult :=
  fun p => if p == "/vol/id" then .found else .notExist

/-- Claim C4 witness: both NotFound shapes and the stat-failure shape at
    concrete oracles. -/
theorem getVolume_missing_and_stat_failures_notFound_witness :
    getVolume statMiss0 [] "/vol" "id" = .error (.notFound (goJoin2 "/vol" "id"))
    ∧ getVolume statDirOnly0 [] "/vol" "id" =
        .error (.notFound (goJoin2 (goJoin2 "/vol" "id") infoFileName))
    ∧ getVolume statFail0 [] "/vol" "id" =
        .error (.notFound (goJoin2 "/vol" "id" ++ ": " ++ "permission denied")) :=
  ⟨(getVolume_missing_and_stat_failures_notFound statMiss0 [] "/vol" "id").1 rfl,
   ((getVolume_missing_and_stat_failures_notFound statDirOnly0 [] "/vol" "id").2.2
      (by decide)).1 (by decide),
   (getVolume_missing_and_stat_failures_notFound statFail0 [] "/vol" "id").2.1
      "permission denied" (by decide)⟩

/-! ## Claims about the mount-point query -/

/-- Claim C7: on a successful table read the query returns exactly the
    Path fields of the resolved records whose Source equals the join of
    the mount root and the volume identifier, and when no record
    matches it returns an empty list without error. -/
theorem getVolumeMountPaths_exact (M V : String) (table : List Entry) :
    (∃ paths, getVolumeMountPaths (.ok table) M V = .ok paths
       ∧ ∀ p, p ∈ paths ↔
           ∃ mi, mi ∈ getMounts table ∧ mi.Source = goJoin2 M V ∧ mi.Path = p)
    ∧ ((∀ mi, mi ∈ getMounts table → ¬ mi.Source = goJoin2 M V) →
        getVolumeMountPaths (.ok table) M V = .ok []) := by
  constructor
  · refine ⟨_, rfl, ?_⟩
    intro p
    simp only [List.mem_map, List.mem_filter]
    constructor
    · rintro ⟨mi, ⟨hmem, hsrc⟩, hpath⟩
      exact ⟨mi, hmem, by simpa using hsrc, hpath⟩
    · rintro ⟨mi, hmem, hsrc, hpath⟩
      exact ⟨mi, ⟨hmem, by simpa using hsrc⟩, hpath⟩
  · intro h
    have hnil : (getMounts table).filter (fun mi => mi.Source == goJoin2 M V) = [] := by
      rw [List.filter_eq_nil_iff]
      intro a ha
      simpa using h a ha
    simp [getVolumeMountPaths, hnil]

/-- The root-fragment table used to exercise the query. -/
def qAnchorE : Entry :=
  { Root := "/", MountPoint := "/mnt/vol1", MountSource := "/dev/sdb1",
    FSType := "ext4", MountOpts := ["rw"] }

/-- A bind mount publishing the same device at a second path. -/
def qBindE : Entry :=
  { Root := "/", MountPoint := "/published/y", MountSource := "/dev/sdb1",
    FSType := "ext4", MountOpts := ["rw"] }

/-- Claim C7 witness: querying an unrelated volume identifier over a
    concrete table returns an empty list and no error. -/
theorem getVolumeMountPaths_exact_witness :
    getVolumeMountPaths (.ok [qAnchorE, qBindE]) "/mnt" "unrelated" = .ok [] :=
  (getVolumeMountPaths_exact "/mnt" "unrelated" [qAnchorE, qBindE]).2 (by decide)

/-- Claim C8: a failure of the mount-table retrieval is returned
    unchanged by the query, and no mount-path list is produced. -/
theorem getVolumeMountPaths_propagates_error (err : String) (M V : String) :
    getVolumeMountPaths (.error err) M V = .error err := rfl

end CsiVfs
